import Mathlib

/-!
Verification of the tree-manager frontend (aimonkapp).

The embedding follows the three source files:
- frontend/src/types/tree.ts        : the data model (TreeNodeType, TreeType)
- frontend/src/components/TreeManager.tsx : the TreeView export transformation
  (renderTree) and the createTree handler
- frontend/src/components/TreeNode.tsx    : the per-node UI handlers
  (handleAddChild, handleUpdateData, handleDeleteNode, handleNameUpdate)
  and the conditional rendering of the per-node controls.

JavaScript null for the optional data payload is modelled as Option String;
a JSON object field that may be absent is modelled as an outer Option.
-/

/-- The node type of tree.ts: id, tree_id, path, name, data (string or null),
and an ordered list of children.  An inductive (rather than a structure)
because the type is recursive through the child list. -/
inductive TreeNodeType where
  | mk (id : Int) (tree_id : Int) (path : String) (name : String)
       (data : Option String) (children : List TreeNodeType)
deriving Inhabited

def TreeNodeType.id : TreeNodeType → Int
  | .mk i _ _ _ _ _ => i

def TreeNodeType.tree_id : TreeNodeType → Int
  | .mk _ t _ _ _ _ => t

def TreeNodeType.path : TreeNodeType → String
  | .mk _ _ p _ _ _ => p

def TreeNodeType.name : TreeNodeType → String
  | .mk _ _ _ n _ _ => n

def TreeNodeType.data : TreeNodeType → Option String
  | .mk _ _ _ _ d _ => d

def TreeNodeType.children : TreeNodeType → List TreeNodeType
  | .mk _ _ _ _ _ c => c

/-- The tree type of tree.ts: a tree id and a root node or null. -/
structure TreeType where
  tree_id : Int
  root : Option TreeNodeType

/-- The plain JavaScript object produced by renderTree.  It always has a
name key; the children key and the data key are each present or absent
(outer Option), and the data key, when present, holds a string or null
(inner Option).  Nothing in this type forces the two optional keys to be
exclusive: that exclusivity is what the render theorems establish. -/
inductive Value where
  | mk (name : String) (children : Option (List Value)) (data : Option (Option String))

def Value.name : Value → String
  | .mk n _ _ => n

def Value.children : Value → Option (List Value)
  | .mk _ c _ => c

def Value.data : Value → Option (Option String)
  | .mk _ _ d => d

mutual
/-- renderTree of TreeManager.tsx (inside TreeView): returns an object with
the node name, spread with either a children key (the in-order rendering of
the children, when node.children.length > 0) or a data key (node.data). -/
def renderTree : TreeNodeType → Value
  | .mk _ _ _ name data children =>
    if children.length > 0 then
      Value.mk name (some (renderForest children)) none
    else
      Value.mk name none (some data)

/-- node.children.map renderTree, written as explicit recursion so that the
mutual definition with renderTree terminates structurally. -/
def renderForest : List TreeNodeType → List Value
  | [] => []
  | c :: cs => renderTree c :: renderForest cs
end

theorem renderForest_eq_map (l : List TreeNodeType) :
    renderForest l = l.map renderTree := by
  induction l with
  | nil => simp [renderForest]
  | cons c cs ih => simp [renderForest, ih]

/-- The TreeView component stringifies renderTree(tree.root) without a null
check.  In JavaScript, renderTree(null) evaluates null.name and throws a
TypeError; that fault is modelled as the error branch. -/
def treeViewExport (tree : TreeType) : Except Unit Value :=
  match tree.root with
  | none => .error ()
  | some r => .ok (renderTree r)

/-- The structural content of a tree as the spec describes it: a leaf keeps
its stored data, an internal node keeps its children in stored order.  Used
to state round-trip fidelity of the export. -/
inductive Shape where
  | leaf (name : String) (data : Option String)
  | internal (name : String) (children : List Shape)

mutual
/-- Modelled from the spec: the stored shape of a node — its name, its
stored data when it has no children, and otherwise its children in exactly
the stored child order.  This is the spec-side description the rendered
value is compared against, not a translation of source code. -/
def specStoredShape : TreeNodeType → Shape
  | .mk _ _ _ name data children =>
    match children with
    | [] => .leaf name data
    | c :: cs => .internal name (specStoredShapeList (c :: cs))

def specStoredShapeList : List TreeNodeType → List Shape
  | [] => []
  | c :: cs => specStoredShape c :: specStoredShapeList cs
end

mutual
/-- Modelled from the spec: reading a rendered value back into a shape.  A
value with a children key parses as an internal node from its parsed
children; a value with only a data key parses as a leaf; a value with
neither key does not parse. -/
def readShape : Value → Option Shape
  | .mk name (some cs) _ => (readShapeList cs).map (Shape.internal name)
  | .mk name none (some d) => some (.leaf name d)
  | .mk _ none none => none

def readShapeList : List Value → Option (List Shape)
  | [] => some []
  | v :: vs =>
    match readShape v, readShapeList vs with
    | some s, some ss => some (s :: ss)
    | _, _ => none
end

mutual
theorem readShape_renderTree (n : TreeNodeType) :
    readShape (renderTree n) = some (specStoredShape n) :=
  match n with
  | .mk i t p name data children => by
    match children with
    | [] => simp [renderTree, readShape, specStoredShape]
    | c :: cs =>
      rw [renderTree]
      simp [readShape, specStoredShape, readShapeList_renderForest (c :: cs)]

theorem readShapeList_renderForest (l : List TreeNodeType) :
    readShapeList (renderForest l) = some (specStoredShapeList l) :=
  match l with
  | [] => by simp [renderForest, readShapeList, specStoredShapeList]
  | c :: cs => by
    rw [renderForest, readShapeList, readShape_renderTree c,
      readShapeList_renderForest cs, specStoredShapeList]
end

/-- The JSON body of a PATCH to /nodes/:id.  Each key may be absent (outer
Option); the data key, when present, may hold a string or null (inner
Option). -/
structure PatchBody where
  name : Option String
  data : Option (Option String)
deriving DecidableEq

/-- The HTTP requests the client issues, one constructor per fetch call in
the source: createTree posts to /trees/:treeId/root?name=..., handleAddChild
posts to /trees/:treeId/nodes with parent_id/name/data, handleUpdateData and
handleNameUpdate PATCH /nodes/:id, handleDeleteNode deletes
/nodes/:treeId/:path. -/
inductive Request where
  | createRoot (treeId : Int) (name : String)
  | addChild (parentId : Int) (name : String) (data : String)
  | patch (nodeId : Int) (body : PatchBody)
  | deleteNode (treeId : Int) (path : String)
deriving DecidableEq

/-- The tree id computed in createTree of TreeManager.tsx:
Math.floor(Math.random() * 2000000000), with Math.random modelled as an
exact rational in the unit interval. -/
def genTreeId (random : ℚ) : Int :=
  ⌊random * 2000000000⌋

/-- createTree of TreeManager.tsx: returns early (no request) when the
entered name trims to the empty string, otherwise posts the root-creation
request with the client-generated random tree id. -/
def createTree (newTreeName : String) (random : ℚ) : Option Request :=
  if newTreeName.trim = "" then none
  else some (.createRoot (genTreeId random) newTreeName)

/-- handleAddChild of TreeNode.tsx: returns early (no request) when the
child name trims to the empty string, otherwise posts parent_id, name and
data. -/
def handleAddChild (node : TreeNodeType) (childName childDataValue : String) :
    Option Request :=
  if childName.trim = "" then none
  else some (.addChild node.id childName childDataValue)

/-- handleUpdateData of TreeNode.tsx: unconditionally PATCHes the node with
a body whose only key is data, holding the current string state of the
textarea (never null). -/
def handleUpdateData (node : TreeNodeType) (dataValue : String) : Request :=
  .patch node.id ⟨none, some (some dataValue)⟩

/-- handleDeleteNode of TreeNode.tsx: deletes /nodes/:treeId/:path. -/
def handleDeleteNode (node : TreeNodeType) (treeId : Int) : Request :=
  .deleteNode treeId node.path

/-- The outcome of handleNameUpdate: the request issued (if any), the value
of the name state afterwards, and the editing flag (always cleared). -/
structure NameUpdateResult where
  request : Option Request
  name : String
  editing : Bool
deriving DecidableEq

/-- handleNameUpdate of TreeNode.tsx: a name that trims to empty reverts
the name state to node.name and issues nothing; a name different from
node.name PATCHes a body whose only key is name; an unchanged name issues
nothing.  Editing mode ends in every branch. -/
def handleNameUpdate (node : TreeNodeType) (name : String) : NameUpdateResult :=
  if name.trim = "" then ⟨none, node.name, false⟩
  else if name ≠ node.name then
    ⟨some (.patch node.id ⟨some name, none⟩), name, false⟩
  else ⟨none, name, false⟩

/-- The useState hooks of the TreeNode component.  The source names the
first field open; that is a keyword here, so it is isOpen. -/
structure NodeUIState where
  isOpen : Bool
  editing : Bool
  name : String
  showDeleteDialog : Bool
  showAddDialog : Bool
  showEditDialog : Bool
  childName : String
  childDataValue : String
  dataValue : String

/-- The initial useState values of TreeNode.tsx: open=true, editing=false,
name=node.name, all dialogs closed, childName="", childDataValue="",
dataValue = node.data ?? "". -/
def initState (node : TreeNodeType) : NodeUIState :=
  ⟨true, false, node.name, false, false, false, "", "", node.data.getD ""⟩

/-- The user interactions the TreeNode component can receive, one per
handler or controlled input in the JSX. -/
inductive UIEvent where
  | toggleOpen
  | startEditName
  | typeName (value : String)
  | confirmName
  | cancelEditName
  | openAddDialog
  | typeChildName (value : String)
  | typeChildData (value : String)
  | submitAddChild
  | closeAddDialog
  | openEditDialog
  | typeData (value : String)
  | submitEditData
  | closeEditDialog
  | openDeleteDialog
  | confirmDelete
  | closeDeleteDialog

/-- One step of the TreeNode component: the state update and the request
issued (if any) for each event.  Each event is guarded by the rendering
condition of the control that raises it: typing events require their input
to be mounted (its dialog open, or editing mode on), submit events require
their dialog to be open, startEditName requires the name span to be shown,
and openEditDialog requires the Edit Data button, which the JSX renders
only when node.children.length === 0; an event whose control is not
mounted leaves the state unchanged.  openEditDialog also resets
dataValue from node.data ?? "" before opening, as its onClick does. -/
def step (treeId : Int) (node : TreeNodeType) (s : NodeUIState) :
    UIEvent → NodeUIState × Option Request
  | .toggleOpen => ({ s with isOpen := !s.isOpen }, none)
  | .startEditName =>
    if s.editing then (s, none) else ({ s with editing := true }, none)
  | .typeName v =>
    if s.editing then ({ s with name := v }, none) else (s, none)
  | .confirmName =>
    if s.editing then
      let r := handleNameUpdate node s.name
      ({ s with name := r.name, editing := r.editing }, r.request)
    else (s, none)
  | .cancelEditName =>
    if s.editing then ({ s with name := node.name, editing := false }, none)
    else (s, none)
  | .openAddDialog => ({ s with showAddDialog := true }, none)
  | .typeChildName v =>
    if s.showAddDialog then ({ s with childName := v }, none) else (s, none)
  | .typeChildData v =>
    if s.showAddDialog then ({ s with childDataValue := v }, none) else (s, none)
  | .submitAddChild =>
    if s.showAddDialog then
      match handleAddChild node s.childName s.childDataValue with
      | none => (s, none)
      | some r => ({ s with showAddDialog := false, childName := "" }, some r)
    else (s, none)
  | .closeAddDialog => ({ s with showAddDialog := false }, none)
  | .openEditDialog =>
    if node.children.length = 0 then
      ({ s with dataValue := node.data.getD "", showEditDialog := true }, none)
    else (s, none)
  | .typeData v =>
    if s.showEditDialog then ({ s with dataValue := v }, none) else (s, none)
  | .submitEditData =>
    if s.showEditDialog then
      ({ s with showEditDialog := false }, some (handleUpdateData node s.dataValue))
    else (s, none)
  | .closeEditDialog => ({ s with showEditDialog := false }, none)
  | .openDeleteDialog => ({ s with showDeleteDialog := true }, none)
  | .confirmDelete =>
    if s.showDeleteDialog then
      ({ s with showDeleteDialog := false }, some (handleDeleteNode node treeId))
    else (s, none)
  | .closeDeleteDialog => ({ s with showDeleteDialog := false }, none)

/-- Run a sequence of user interactions from a state, collecting the
requests issued in order. -/
def run (treeId : Int) (node : TreeNodeType) (s : NodeUIState) :
    List UIEvent → NodeUIState × List Request
  | [] => (s, [])
  | e :: es =>
    let p := step treeId node s e
    let q := run treeId node p.1 es
    (q.1, p.2.toList ++ q.2)

theorem handleNameUpdate_request (node : TreeNodeType) (nm : String) :
    (handleNameUpdate node nm).request = none ∨
    (handleNameUpdate node nm).request =
      some (.patch node.id ⟨some nm, none⟩) := by
  unfold handleNameUpdate
  split
  · exact Or.inl rfl
  · split
    · exact Or.inr rfl
    · exact Or.inl rfl

/-- Exhaustive characterization of the request a single step can emit. -/
theorem step_request_cases (treeId : Int) (node : TreeNodeType)
    (s : NodeUIState) (e : UIEvent) :
    (step treeId node s e).2 = none ∨
    (step treeId node s e).2 =
      some (.addChild node.id s.childName s.childDataValue) ∨
    (step treeId node s e).2 = some (.patch node.id ⟨some s.name, none⟩) ∨
    (s.showEditDialog = true ∧
      (step treeId node s e).2 =
        some (.patch node.id ⟨none, some (some s.dataValue)⟩)) ∨
    (step treeId node s e).2 = some (.deleteNode treeId node.path) := by
  cases e with
  | toggleOpen => exact Or.inl rfl
  | startEditName => exact Or.inl (by simp only [step]; split <;> rfl)
  | typeName v => exact Or.inl (by simp only [step]; split <;> rfl)
  | confirmName =>
    simp only [step]
    split
    · rcases handleNameUpdate_request node s.name with h | h
      · exact Or.inl h
      · exact Or.inr (Or.inr (Or.inl h))
    · exact Or.inl rfl
  | cancelEditName => exact Or.inl (by simp only [step]; split <;> rfl)
  | openAddDialog => exact Or.inl rfl
  | typeChildName v => exact Or.inl (by simp only [step]; split <;> rfl)
  | typeChildData v => exact Or.inl (by simp only [step]; split <;> rfl)
  | submitAddChild =>
    simp only [step]
    split
    · by_cases h : s.childName.trim = ""
      · simp [handleAddChild, h]
      · simp [handleAddChild, h]
    · exact Or.inl rfl
  | closeAddDialog => exact Or.inl rfl
  | openEditDialog =>
    by_cases h : node.children.length = 0 <;> exact Or.inl (by simp [step, h])
  | typeData v => exact Or.inl (by simp only [step]; split <;> rfl)
  | submitEditData =>
    by_cases h : s.showEditDialog = true
    · exact Or.inr (Or.inr (Or.inr (Or.inl ⟨h, by simp [step, h, handleUpdateData]⟩)))
    · exact Or.inl (by simp [step, h])
  | closeEditDialog => exact Or.inl rfl
  | openDeleteDialog => exact Or.inl rfl
  | confirmDelete =>
    by_cases h : s.showDeleteDialog = true
    · exact Or.inr (Or.inr (Or.inr (Or.inr (by simp [step, h, handleDeleteNode]))))
    · exact Or.inl (by simp [step, h])
  | closeDeleteDialog => exact Or.inl rfl

/-- With the edit-data dialog closed, a step never emits a patch carrying
the data key. -/
theorem step_no_data_patch (treeId : Int) (node : TreeNodeType)
    (s : NodeUIState) (e : UIEvent) (hs : s.showEditDialog = false)
    (b : PatchBody) (hb : b.data ≠ none) :
    (step treeId node s e).2 ≠ some (.patch node.id b) := by
  rcases step_request_cases treeId node s e with h | h | h | ⟨hd, h⟩ | h
  · rw [h]; simp
  · rw [h]; simp
  · rw [h]
    intro heq
    injection heq with heq2
    injection heq2 with h1 h2
    exact hb (by rw [← h2])
  · rw [hd] at hs; exact Bool.noConfusion hs
  · rw [h]; simp

/-- A node with one or more children never shows the Edit Data button, so
its dialog stays closed along every trace. -/
theorem step_preserves_editClosed (treeId : Int) (node : TreeNodeType)
    (s : NodeUIState) (e : UIEvent) (hc : node.children ≠ [])
    (hs : s.showEditDialog = false) :
    (step treeId node s e).1.showEditDialog = false := by
  have hlen : ¬node.children.length = 0 := by
    simpa [List.length_eq_zero] using hc
  cases e <;> simp only [step] <;> (try split) <;> (try split) <;> simp_all

theorem run_no_data_patch (treeId : Int) (node : TreeNodeType)
    (hc : node.children ≠ []) (b : PatchBody) (hb : b.data ≠ none) :
    ∀ (evs : List UIEvent) (s : NodeUIState), s.showEditDialog = false →
      Request.patch node.id b ∉ (run treeId node s evs).2
  | [], s, _ => by simp [run]
  | e :: es, s, hs => by
    have h1 := step_no_data_patch treeId node s e hs b hb
    have h2 := step_preserves_editClosed treeId node s e hc hs
    have ih := run_no_data_patch treeId node hc b hb es
      (step treeId node s e).1 h2
    simp only [run, List.mem_append]
    rintro (hmem | hmem)
    · rcases hq : (step treeId node s e).2 with _ | r
      · simp [hq] at hmem
      · rw [hq] at hmem
        simp only [Option.toList_some, List.mem_singleton] at hmem
        exact h1 (by rw [hq, hmem])
    · exact ih hmem

/-- No step ever emits a patch whose data key holds null. -/
theorem step_data_never_null (treeId : Int) (node : TreeNodeType)
    (s : NodeUIState) (e : UIEvent) (id : Int) (b : PatchBody)
    (hb : b.data = some none) :
    (step treeId node s e).2 ≠ some (.patch id b) := by
  rcases step_request_cases treeId node s e with h | h | h | ⟨_, h⟩ | h
  · rw [h]; simp
  · rw [h]; simp
  · rw [h]
    intro heq
    injection heq with heq2
    injection heq2 with h1 h2
    rw [← h2] at hb
    simp at hb
  · rw [h]
    intro heq
    injection heq with heq2
    injection heq2 with h1 h2
    rw [← h2] at hb
    simp at hb
  · rw [h]; simp

theorem run_data_never_null (treeId : Int) (node : TreeNodeType)
    (id : Int) (b : PatchBody) (hb : b.data = some none) :
    ∀ (evs : List UIEvent) (s : NodeUIState),
      Request.patch id b ∉ (run treeId node s evs).2
  | [], s => by simp [run]
  | e :: es, s => by
    have h1 := step_data_never_null treeId node s e id b hb
    have ih := run_data_never_null treeId node id b hb es
      (step treeId node s e).1
    simp only [run, List.mem_append]
    rintro (hmem | hmem)
    · rcases hq : (step treeId node s e).2 with _ | r
      · simp [hq] at hmem
      · rw [hq] at hmem
        simp only [Option.toList_some, List.mem_singleton] at hmem
        exact h1 (by rw [hq, hmem])
    · exact ih hmem

/-- A concrete childless node with null data, used by witnesses. -/
def sampleNullLeaf : TreeNodeType :=
  .mk 4 1 "p" "x" none []

/-- A concrete node with one child, used by witnesses. -/
def sampleParent : TreeNodeType :=
  .mk 5 1 "q" "y" none [sampleNullLeaf]

/-- The empty string trims to itself; used to instantiate the trimmed-empty
hypotheses at a concrete input. -/
theorem trim_empty : "".trim = "" := by
  simp [String.trim, Substring.trim, String.toSubstring, Substring.toString,
    Substring.takeWhileAux, Substring.takeRightWhileAux, String.endPos,
    String.utf8ByteSize, String.extract]

/-- C1: renderTree returns exactly one of the two shapes.  With one or more
children it is the object with a children key holding the in-order
rendering of the children and no data key; with zero children it is the
object with a data key and no children key, even when the stored data is
null.  The two optional keys are never both present. -/
theorem renderTree_two_shapes (node : TreeNodeType) :
    (node.children.length > 0 →
      renderTree node =
        Value.mk node.name (some (node.children.map renderTree)) none) ∧
    (node.children.length = 0 →
      renderTree node = Value.mk node.name none (some node.data)) ∧
    ¬((renderTree node).children.isSome ∧ (renderTree node).data.isSome) := by
  obtain ⟨i, t, p, nm, d, cs⟩ := node
  cases cs with
  | nil =>
    refine ⟨by simp [TreeNodeType.children], fun _ => ?_, ?_⟩
    · simp [renderTree, TreeNodeType.name, TreeNodeType.data]
    · simp [renderTree, Value.children, Value.data]
  | cons c cs =>
    refine ⟨fun _ => ?_, by simp [TreeNodeType.children], ?_⟩
    · simp [renderTree, TreeNodeType.name, TreeNodeType.children,
        renderForest_eq_map]
    · simp [renderTree, Value.children, Value.data]

/-- C1 witness: a childless node with null data renders to the data form
with a null data value. -/
theorem renderTree_two_shapes_witness :
    renderTree sampleNullLeaf =
      Value.mk sampleNullLeaf.name none (some sampleNullLeaf.data) :=
  (renderTree_two_shapes sampleNullLeaf).2.1 rfl

/-- C2: round-trip fidelity of the export — reading the rendered value of
any tree back into a shape yields exactly the stored shape: leaves carry
the stored data and internal nodes list their children in exactly the
stored child order. -/
theorem export_roundtrip (n : TreeNodeType) :
    readShape (renderTree n) = some (specStoredShape n) :=
  readShape_renderTree n

/-- C3: the TreeView export of a listed tree whose root is null faults —
renderTree(null) dereferences node.name on null and throws, modelled as
the error outcome.  The claim that the export is well-defined for a
rootless listed tree fails on the code. -/
theorem treeView_null_root_faults :
    treeViewExport ⟨7, none⟩ = .error () := rfl

/-- C4: for a node with one or more children, no sequence of user
interactions from the initial component state ever issues a PATCH for that
node whose body carries the data key: the Edit Data control is rendered
only for childless nodes, so the edit dialog can never open. -/
theorem internal_node_no_data_patch (treeId : Int) (node : TreeNodeType)
    (evs : List UIEvent) (b : PatchBody) (hc : node.children ≠ [])
    (hb : b.data ≠ none) :
    Request.patch node.id b ∉ (run treeId node (initState node) evs).2 :=
  run_no_data_patch treeId node hc b hb evs (initState node) rfl

/-- C4 witness: on a node with one child, attempting to open the edit
dialog and submit produces no data patch. -/
theorem internal_node_no_data_patch_witness :
    Request.patch sampleParent.id ⟨none, some (some "z")⟩ ∉
      (run 9 sampleParent (initState sampleParent)
        [UIEvent.openEditDialog, UIEvent.submitEditData]).2 :=
  internal_node_no_data_patch 9 sampleParent
    [UIEvent.openEditDialog, UIEvent.submitEditData] ⟨none, some (some "z")⟩
    (by simp [sampleParent, TreeNodeType.children]) (by simp)

/-- C5: the concrete scenario — a root named root with null data and two
children a and b in that order, each holding the empty-string data,
renders to the object named root whose children are a then b, each in
data form with the empty string.  The node ids, tree ids and paths are
arbitrary. -/
theorem export_concrete_scenario (i1 i2 i3 t1 t2 t3 : Int)
    (p1 p2 p3 : String) :
    renderTree (.mk i1 t1 p1 "root" none
      [.mk i2 t2 p2 "a" (some "") [], .mk i3 t3 p3 "b" (some "") []]) =
    Value.mk "root"
      (some [Value.mk "a" none (some (some "")),
             Value.mk "b" none (some (some ""))])
      none := by
  simp [renderTree, renderForest]

/-- C6: a name that is empty after trimming causes no mutation: createTree
issues no request and handleAddChild issues no request. -/
theorem empty_name_no_mutation (name : String) (random : ℚ)
    (node : TreeNodeType) (childData : String) (h : name.trim = "") :
    createTree name random = none ∧
    handleAddChild node name childData = none := by
  simp [createTree, handleAddChild, h]

/-- C6 witness: the empty name produces neither request. -/
theorem empty_name_no_mutation_witness :
    createTree "" (1/2) = none ∧
    handleAddChild sampleNullLeaf "" "d" = none :=
  empty_name_no_mutation "" (1/2) sampleNullLeaf "d" trim_empty

/-- C7: handleNameUpdate — a name trimming to empty issues no request and
reverts the displayed name to the stored one; a name equal to the stored
name issues no request; only a non-empty changed name issues a PATCH, and
its body carries only the name key. -/
theorem name_update_policy (node : TreeNodeType) (nm : String) :
    (nm.trim = "" → handleNameUpdate node nm = ⟨none, node.name, false⟩) ∧
    (nm = node.name → (handleNameUpdate node nm).request = none) ∧
    (nm.trim ≠ "" → nm ≠ node.name →
      handleNameUpdate node nm =
        ⟨some (.patch node.id ⟨some nm, none⟩), nm, false⟩) := by
  refine ⟨fun h => by simp [handleNameUpdate, h], fun h => ?_,
    fun h1 h2 => by simp [handleNameUpdate, h1, h2]⟩
  by_cases ht : nm.trim = "" <;> simp [handleNameUpdate, ht, h]

/-- C7 witness: the empty rename reverts to the stored name with no
request. -/
theorem name_update_policy_witness :
    handleNameUpdate sampleNullLeaf "" = ⟨none, sampleNullLeaf.name, false⟩ :=
  (name_update_policy sampleNullLeaf "").1 trim_empty

/-- C8: the export transformation is a deterministic pure function of the
subtree — two applications to equal nodes produce equal values — and the
rendered children of an internal node are exactly its stored children,
rendered in stored insertion order. -/
theorem render_deterministic_ordered (n1 n2 : TreeNodeType) (h : n1 = n2) :
    renderTree n1 = renderTree n2 ∧
    (n1.children ≠ [] →
      (renderTree n1).children = some (n1.children.map renderTree)) := by
  subst h
  refine ⟨rfl, fun hc => ?_⟩
  obtain ⟨i, t, p, nm, d, cs⟩ := n1
  cases cs with
  | nil => simp [TreeNodeType.children] at hc
  | cons c cs =>
    simp [renderTree, TreeNodeType.children, Value.children,
      renderForest_eq_map]

/-- C8 witness: evaluated on a concrete one-child node. -/
theorem render_deterministic_ordered_witness :
    renderTree sampleParent = renderTree sampleParent ∧
    (renderTree sampleParent).children =
      some (sampleParent.children.map renderTree) := by
  have h := render_deterministic_ordered sampleParent sampleParent rfl
  exact ⟨h.1, h.2 (by simp [sampleParent, TreeNodeType.children])⟩

/-- C9: the client-generated tree id, Math.floor of a unit-interval random
draw times 2000000000, is a nonnegative integer strictly below 2000000000,
and createTree embeds exactly this client-chosen id in its request rather
than letting the store allocate one. -/
theorem client_tree_id_range (random : ℚ) (name : String)
    (h0 : 0 ≤ random) (h1 : random < 1) :
    (0 ≤ genTreeId random ∧ genTreeId random < 2000000000) ∧
    (name.trim ≠ "" →
      createTree name random = some (.createRoot (genTreeId random) name)) := by
  refine ⟨⟨?_, ?_⟩, fun h => by simp [createTree, h]⟩
  · exact Int.le_floor.mpr (by push_cast; exact mul_nonneg h0 (by norm_num))
  · refine Int.floor_lt.mpr ?_
    push_cast
    have h2 := mul_lt_mul_of_pos_right h1 (show (0:ℚ) < 2000000000 by norm_num)
    linarith

/-- C9 witness: at the draw one half the id is in range. -/
theorem client_tree_id_range_witness :
    0 ≤ genTreeId (1/2) ∧ genTreeId (1/2) < 2000000000 :=
  (client_tree_id_range (1/2) "x" (by norm_num) (by norm_num)).1

/-- C10: the data edit field is seeded from the stored data coerced
with the empty-string default, and no sequence of user interactions ever
issues a PATCH whose data key holds null: the client can set data to the
empty string but can never clear it back to null. -/
theorem data_patch_never_null (treeId : Int) (node : TreeNodeType)
    (evs : List UIEvent) (id : Int) (b : PatchBody)
    (hb : b.data = some none) :
    (initState node).dataValue = node.data.getD "" ∧
    Request.patch id b ∉ (run treeId node (initState node) evs).2 :=
  ⟨rfl, run_data_never_null treeId node id b hb evs (initState node)⟩

/-- C10 witness: on a childless node, opening the edit dialog and saving
never yields a null data patch. -/
theorem data_patch_never_null_witness :
    (initState sampleNullLeaf).dataValue = sampleNullLeaf.data.getD "" ∧
    Request.patch 4 ⟨none, some none⟩ ∉
      (run 9 sampleNullLeaf (initState sampleNullLeaf)
        [UIEvent.openEditDialog, UIEvent.submitEditData]).2 :=
  data_patch_never_null 9 sampleNullLeaf
    [UIEvent.openEditDialog, UIEvent.submitEditData] 4 ⟨none, some none⟩ rfl
